import Mathlib

/-
Shallow embedding of `src/convertingInC/Dwg_to_hybrid.cpp` (class DWGConverter).

Modelling conventions:
  * A filesystem path is its list of components, drive root first
    (e.g. `C:\proj\a.dwg` is `["C:", "proj", "a.dwg"]`).
  * A drive, as seen by `std::filesystem::recursive_directory_iterator`, is the
    list of entries it yields, in iteration order; an entry carries its full
    path and whether it is a regular file.
  * `std::wstring` / `fs::path::filename` comparison is lexicographic over
    character code points; `strLtAux` below implements exactly that order.
  * External-process effects (CreateProcessW / WaitForSingleObject /
    GetExitCodeProcess) are modelled by an environment record saying whether
    the process started, whether the wait timed out, which exit code
    GetExitCodeProcess reported, and which files exist after the wait.
    Directory creations and process launches are recorded as trace events.
-/

namespace DwgHybrid

/-- A filesystem path as its list of components, drive root first. -/
abbrev FPath := List String

/-- One entry yielded by a recursive walk of a drive: its full path and
whether it is a regular file (`false` for directories). -/
structure Entry where
  path : FPath
  isRegular : Bool
  deriving DecidableEq

/-- `fs::path::filename` on a component list: the last component (empty
string for the empty path). -/
def filename (p : FPath) : String := p.getLast?.getD ""

/-- `fs::path::parent_path`: drop the last component; a bare drive root is
its own parent, as in `std::filesystem`. -/
def parentPath (p : FPath) : FPath := if p.length ≤ 1 then p else p.dropLast

/-- `fs::path::has_parent_path`: the parent path is nonempty. -/
def hasParentPath (p : FPath) : Bool := !(parentPath p).isEmpty

/-- Position of the last '.' in a character list, if any. -/
def lastDotPos : List Char → Option Nat
  | [] => none
  | c :: cs =>
    match lastDotPos cs with
    | some i => some (i + 1)
    | none => if c = '.' then some 0 else none

/-- `fs::path::extension` on a filename string: the substring starting at the
last period, except that "." and ".." and a filename whose only period is its
first character (a dotfile) have no extension. -/
def extension (fname : String) : String :=
  if fname = "." ∨ fname = ".." then "" else
    match lastDotPos fname.data with
    | none => ""
    | some 0 => ""
    | some i => String.mk (fname.data.drop i)

/-- `fs::path::stem` on a filename string: the filename minus its extension. -/
def stemOf (fname : String) : String :=
  String.mk (fname.data.take (fname.data.length - (extension fname).data.length))

/-- The fixed `skip_folders` list of `searchDWGInDrive`. -/
def skip_folders : List String :=
  ["Windows", "ProgramData", "$Recycle.Bin", "System Volume Information", "Recovery"]

/-- The inner loop of `searchDWGInDrive` comparing `folder_name` against each
skip entry. -/
def isSkipName (f : String) : Bool := skip_folders.any (fun s => f == s)

/-- The per-entry test of `searchDWGInDrive`'s loop body: entries whose own
filename equals a skip entry are skipped (`continue`), then regular files with
extension ".dwg" are collected.  Note the `continue` only drops the single
entry; the iterator still descends into a skipped directory (the code never
calls `disable_recursion_pending`). -/
def collectEntry (e : Entry) : Bool :=
  !(isSkipName (filename e.path)) && e.isRegular && (extension (filename e.path) == ".dwg")

/-- `searchDWGInDrive`: the paths pushed onto `all_dwg_files` while iterating
one drive. -/
def searchDWGInDrive (drive : List Entry) : List FPath :=
  (drive.filter collectEntry).map (fun e => e.path)

/-- Lexicographic strict order on character lists, each character compared by
code point: the order of `std::wstring::operator<` used by
`a.filename() < b.filename()`. -/
def strLtAux : List Char → List Char → Bool
  | [], [] => false
  | [], _ :: _ => true
  | _ :: _, [] => false
  | c :: cs, d :: ds => if c < d then true else if d < c then false else strLtAux cs ds

/-- Strict `<` on strings (lexicographic over code points). -/
def strLt (a b : String) : Bool := strLtAux a.data b.data

/-- Non-strict comparator by filename induced by the sort comparator
`a.filename() < b.filename()` of `findAllDWGFiles`. -/
def fnameLe (a b : FPath) : Bool := !(strLt (filename b) (filename a))

/-- Insert a path into a list kept sorted by the `findAllDWGFiles`
comparator. -/
def insertFile (p : FPath) : List FPath → List FPath
  | [] => [p]
  | q :: qs => if strLt (filename q) (filename p) then q :: insertFile p qs else p :: q :: qs

/-- The `std::sort(all_dwg_files, by filename)` call of `findAllDWGFiles`,
as an insertion sort with the same comparator. -/
def sortByFilename : List FPath → List FPath
  | [] => []
  | p :: ps => insertFile p (sortByFilename ps)

/-- `findAllDWGFiles`: scan every drive in order with `searchDWGInDrive`,
then sort the collected paths by filename. -/
def findAllDWGFiles (drives : List (List Entry)) : List FPath :=
  sortByFilename (List.flatten (drives.map searchDWGInDrive))

/-- Component-wise lexicographic strict order on paths: the order of
`fs::path::operator<` used by the `std::map` keys of `displayDWGFiles`. -/
def pathLtAux : FPath → FPath → Bool
  | [], [] => false
  | [], _ :: _ => true
  | _ :: _, [] => false
  | a :: as, b :: bs => if strLt a b then true else if strLt b a then false else pathLtAux as bs

/-- Insertion into the sorted, duplicate-free key sequence of a `std::map`
keyed by `fs::path`. -/
def insertKey (d : FPath) : List FPath → List FPath
  | [] => [d]
  | e :: es =>
    if pathLtAux d e then d :: e :: es
    else if pathLtAux e d then e :: insertKey d es
    else e :: es

/-- The key sequence (in iteration order) of the `std::map` built by
`displayDWGFiles` from the parent directory of each file. -/
def mapKeys (files : List FPath) : List FPath :=
  files.foldl (fun ks f => insertKey f.dropLast ks) []

/-- The order in which `displayDWGFiles` numbers the files: groups in
`std::map` key order, and inside a group the files in `all_dwg_files` order
(the order they were pushed into the group's vector).  Position `i` of this
list is the file printed with number `i + 1`. -/
def displayOrder (files : List FPath) : List FPath :=
  ((mapKeys files).map (fun d => files.filter (fun f => f.dropLast == d))).flatten

/-- The file `run` processes for a 1-based selection `choice`:
`all_dwg_files[choice - 1]`. -/
def selectFile (files : List FPath) (choice : Int) : Option FPath :=
  files[(choice - 1).toNat]?

/-- The target filename of the converter locator. -/
def odaExeName : String := "ODAFileConverter.exe"

/-- The target filename of the renderer locator. -/
def pyName : String := "dxf_renderer.py"

/-- `fs::exists` against the drives' contents: some drive yields an entry
with this exact path. -/
def existsPath (drives : List (List Entry)) (p : FPath) : Bool :=
  drives.any (fun d => d.any (fun e => e.path == p))

/-- The sibling-library test of `findODAConverter`'s drive walk: at least one
of TD_Db.dll, TG_Db.dll, TD_Root.dll exists next to the candidate. -/
def hasDllSibling (drives : List (List Entry)) (p : FPath) : Bool :=
  existsPath drives (p.dropLast ++ ["TD_Db.dll"]) ||
  existsPath drives (p.dropLast ++ ["TG_Db.dll"]) ||
  existsPath drives (p.dropLast ++ ["TD_Root.dll"])

/-- The acceptance test of `findODAConverter`'s drive walk for one entry:
a regular file named ODAFileConverter.exe with a library sibling. -/
def odaAccept (drives : List (List Entry)) (e : Entry) : Bool :=
  e.isRegular && (filename e.path == odaExeName) && hasDllSibling drives e.path

/-- One drive's pass of `findODAConverter`'s walk: first accepted entry in
iteration order, if any. -/
def odaInDrive (drives : List (List Entry)) : List Entry → Option FPath
  | [] => none
  | e :: es => if odaAccept drives e then some e.path else odaInDrive drives es

/-- The full-drive phase of `findODAConverter`: drives tried in enumeration
order, first hit wins. -/
def odaAllDrives (drives : List (List Entry)) : List (List Entry) → Option FPath
  | [] => none
  | d :: ds =>
    match odaInDrive drives d with
    | some p => some p
    | none => odaAllDrives drives ds

/-- The nearby phase of `findODAConverter`, in the order the code checks:
grandparent of the current directory (guarded by `has_parent_path` of the
parent), then the parent, then the current directory. -/
def findODANearby (drives : List (List Entry)) (cwd : FPath) : Option FPath :=
  if (hasParentPath (parentPath cwd) &&
      existsPath drives (parentPath (parentPath cwd) ++ [odaExeName])) = true then
    some (parentPath (parentPath cwd) ++ [odaExeName])
  else if existsPath drives (parentPath cwd ++ [odaExeName]) = true then
    some (parentPath cwd ++ [odaExeName])
  else if existsPath drives (cwd ++ [odaExeName]) = true then
    some (cwd ++ [odaExeName])
  else none

/-- `findODAConverter`: the nearby phase, then the full-drive walk. -/
def findODAConverter (drives : List (List Entry)) (cwd : FPath) : Option FPath :=
  match findODANearby drives cwd with
  | some p => some p
  | none => odaAllDrives drives drives

/-- `findPythonRenderer`: checks the current directory, then its parent, for
`dxf_renderer.py`; there is no drive-walk phase. -/
def findPythonRenderer (drives : List (List Entry)) (cwd : FPath) : Option FPath :=
  if existsPath drives (cwd ++ [pyName]) then some (cwd ++ [pyName])
  else if existsPath drives (parentPath cwd ++ [pyName]) then
    some (parentPath cwd ++ [pyName])
  else none

/-- Observable side effects of the pipeline: directory creations
(`fs::create_directories`) and external-process launches (`CreateProcessW`). -/
inductive Event where
  | mkdirDXF : Event
  | runConverter : Event
  | mkdirPDF : Event
  | runRenderer : Event
  deriving DecidableEq

/-- Outcome of the stage-1 process invocation, as the code can observe it:
whether CreateProcessW succeeded, whether WaitForSingleObject timed out,
the value GetExitCodeProcess reported, and which files exist after the wait.
`convertDWGtoDXF` reads the exit code only to print it; it never branches
on `timedOut` or `exitCode`. -/
structure Stage1Env where
  processStarts : Bool
  timedOut : Bool
  exitCode : Nat
  filesAfter : List FPath
  deriving DecidableEq

/-- Outcome of the stage-2 process invocation, observed the same way. -/
structure Stage2Env where
  processStarts : Bool
  timedOut : Bool
  exitCode : Nat
  filesAfter : List FPath
  deriving DecidableEq

/-- The expected stage-1 output path:
`<parent of dwg>/convertedDXF/<stem>.dxf`. -/
def expectedDxf (dwg : FPath) : FPath :=
  dwg.dropLast ++ ["convertedDXF", stemOf (filename dwg) ++ ".dxf"]

/-- The stage-2 output path: `<parent of dwg>/convertedPDF/<stem>.pdf`. -/
def expectedPdf (dwg : FPath) : FPath :=
  dwg.dropLast ++ ["convertedPDF", stemOf (filename dwg) ++ ".pdf"]

/-- `convertDWGtoDXF`: creates `convertedDXF` beside the input, launches the
converter; returns false if the launch fails, else true exactly when the
expected output file exists after the wait.  The exit code and a timeout of
the wait do not enter the decision. -/
def convertDWGtoDXF (env : Stage1Env) (dwg : FPath) : Bool × List Event :=
  if env.processStarts then
    (env.filesAfter.contains (expectedDxf dwg), [Event.mkdirDXF, Event.runConverter])
  else (false, [Event.mkdirDXF, Event.runConverter])

/-- `renderDXFtoPDF`: creates `convertedPDF` beside the input, launches the
renderer; succeeds exactly when the launch succeeded, the reported exit code
is zero, and the expected PDF exists after the wait.  (The code derives the
PDF path from the selected DWG file; the DXF path only enters the command
line.) -/
def renderDXFtoPDF (env : Stage2Env) (dwg : FPath) : Bool × List Event :=
  if env.processStarts then
    ((env.exitCode == 0) && env.filesAfter.contains (expectedPdf dwg),
      [Event.mkdirPDF, Event.runRenderer])
  else (false, [Event.mkdirPDF, Event.runRenderer])

/-- Everything `run` observes in one execution: the drives' contents, the
current directory, the user's numeric choice, and the outcomes of the two
process invocations. -/
structure RunEnv where
  drives : List (List Entry)
  cwd : FPath
  choice : Int
  stage1 : Stage1Env
  stage2 : Stage2Env
  deriving DecidableEq

/-- The file `run` selects: `all_dwg_files[choice - 1]` over the scan
result (meaningful once the choice passed the range check). -/
def selectedOf (env : RunEnv) : FPath :=
  (selectFile (findAllDWGFiles env.drives) env.choice).getD []

/-- `DWGConverter::run`: locate the converter, locate the renderer, scan,
check the selection, then stage 1 and stage 2, failing fast.  Returns the
success flag and the trace of side effects. -/
def run (env : RunEnv) : Bool × List Event :=
  match findODAConverter env.drives env.cwd with
  | none => (false, [])
  | some _ =>
    match findPythonRenderer env.drives env.cwd with
    | none => (false, [])
    | some _ =>
      if (findAllDWGFiles env.drives).isEmpty = true then (false, [])
      else if env.choice ≤ 0 ∨ ((findAllDWGFiles env.drives).length : Int) < env.choice then
        (false, [])
      else if (convertDWGtoDXF env.stage1 (selectedOf env)).1 = true then
        ((renderDXFtoPDF env.stage2 (selectedOf env)).1,
          (convertDWGtoDXF env.stage1 (selectedOf env)).2 ++
            (renderDXFtoPDF env.stage2 (selectedOf env)).2)
      else (false, (convertDWGtoDXF env.stage1 (selectedOf env)).2)

/-! Helper lemmas about the comparator and the sort. -/

theorem strLtAux_asymm : ∀ x y : List Char, strLtAux x y = true → strLtAux y x = false := by
  intro x
  induction x with
  | nil =>
    intro y h
    cases y <;> simp_all [strLtAux]
  | cons c cs ih =>
    intro y h
    cases y with
    | nil => simp [strLtAux] at h
    | cons d ds =>
      simp only [strLtAux] at h ⊢
      by_cases h1 : c < d
      · have h2 : ¬ d < c := lt_asymm h1
        simp [h1, h2]
      · by_cases h2 : d < c
        · simp [h1, h2] at h
        · simp only [if_neg h1, if_neg h2] at h ⊢
          exact ih ds h

theorem strLtAux_trans :
    ∀ x y z : List Char, strLtAux x y = true → strLtAux y z = true → strLtAux x z = true := by
  intro x
  induction x with
  | nil =>
    intro y z hxy hyz
    cases y with
    | nil => simp [strLtAux] at hxy
    | cons d ds =>
      cases z with
      | nil => simp [strLtAux] at hyz
      | cons e es => simp [strLtAux]
  | cons c cs ih =>
    intro y z hxy hyz
    cases y with
    | nil => simp [strLtAux] at hxy
    | cons d ds =>
      cases z with
      | nil => simp [strLtAux] at hyz
      | cons e es =>
        simp only [strLtAux] at hxy hyz ⊢
        by_cases h1 : c < d
        · by_cases h2 : d < e
          · simp [lt_trans h1 h2]
          · by_cases h3 : e < d
            · simp [h2, h3] at hyz
            · have hde : d = e := le_antisymm (le_of_not_lt h3) (le_of_not_lt h2)
              subst hde
              simp [h1]
        · by_cases h1' : d < c
          · simp [h1, h1'] at hxy
          · have hcd : c = d := le_antisymm (le_of_not_lt h1') (le_of_not_lt h1)
            subst hcd
            simp only [if_neg h1, if_neg h1'] at hxy
            by_cases h2 : c < e
            · simp [h2]
            · by_cases h3 : e < c
              · simp [h2, h3] at hyz
              · simp only [if_neg h2, if_neg h3] at hyz ⊢
                exact ih ds es hxy hyz

theorem strLtAux_eq :
    ∀ x y : List Char, strLtAux x y = false → strLtAux y x = false → x = y := by
  intro x
  induction x with
  | nil =>
    intro y h1 _
    cases y with
    | nil => rfl
    | cons d ds => simp [strLtAux] at h1
  | cons c cs ih =>
    intro y h1 h2
    cases y with
    | nil => simp [strLtAux] at h2
    | cons d ds =>
      simp only [strLtAux] at h1 h2
      by_cases hc : c < d
      · simp [hc] at h1
      · by_cases hd : d < c
        · simp [hd] at h2
        · have : c = d := le_antisymm (le_of_not_lt hd) (le_of_not_lt hc)
          subst this
          simp only [if_neg hc, if_neg hd] at h1 h2
          rw [ih ds h1 h2]

theorem strLtAux_le_trans :
    ∀ x y z : List Char, strLtAux y x = false → strLtAux z y = false → strLtAux z x = false := by
  intro x y z h1 h2
  cases h : strLtAux z x with
  | false => rfl
  | true =>
    cases hyz : strLtAux y z with
    | true => exact absurd (strLtAux_trans y z x hyz h) (by simp [h1])
    | false =>
      have hy : y = z := strLtAux_eq y z hyz h2
      subst hy
      exact absurd h (by simp [h1])

theorem mem_insertFile :
    ∀ (p x : FPath) (l : List FPath), x ∈ insertFile p l ↔ x = p ∨ x ∈ l := by
  intro p x l
  induction l with
  | nil => simp [insertFile]
  | cons q qs ih =>
    simp only [insertFile]
    split_ifs with h
    · simp only [List.mem_cons, ih]
      tauto
    · simp only [List.mem_cons]

theorem sorted_insertFile :
    ∀ (p : FPath) (l : List FPath),
      List.Sorted (fun a b => fnameLe a b = true) l →
      List.Sorted (fun a b => fnameLe a b = true) (insertFile p l) := by
  intro p l
  induction l with
  | nil =>
    intro _
    simp [insertFile]
  | cons q qs ih =>
    intro h
    rw [List.sorted_cons] at h
    obtain ⟨hq, hqs⟩ := h
    simp only [insertFile]
    split_ifs with hlt
    · rw [List.sorted_cons]
      constructor
      · intro b hb
        rcases (mem_insertFile p b qs).1 hb with rfl | hbq
        · simp only [fnameLe, strLt, Bool.not_eq_true']
          exact strLtAux_asymm _ _ (by simpa [strLt] using hlt)
        · exact hq b hbq
      · exact ih hqs
    · rw [List.sorted_cons]
      constructor
      · intro b hb
        rcases List.mem_cons.1 hb with rfl | hbq
        · simp only [fnameLe, strLt, Bool.not_eq_true']
          simpa [strLt] using hlt
        · have h1 := hq b hbq
          simp only [fnameLe, strLt, Bool.not_eq_true'] at h1 ⊢
          exact strLtAux_le_trans _ _ _ (by simpa [strLt] using hlt) h1
      · rw [List.sorted_cons]
        exact ⟨hq, hqs⟩

theorem sorted_sortByFilename :
    ∀ l : List FPath, List.Sorted (fun a b => fnameLe a b = true) (sortByFilename l) := by
  intro l
  induction l with
  | nil => simp [sortByFilename]
  | cons p ps ih => exact sorted_insertFile p _ ih

/-! Helper lemmas about the converter drive walk and the stage traces. -/

theorem isSkipName_extension : ∀ f : String, isSkipName f = true → extension f ≠ ".dwg" := by
  intro f h
  have hf : f = "Windows" ∨ f = "ProgramData" ∨ f = "$Recycle.Bin" ∨
      f = "System Volume Information" ∨ f = "Recovery" := by
    simpa [isSkipName, skip_folders] using h
  rcases hf with rfl | rfl | rfl | rfl | rfl <;> decide

theorem convert_trace (env : Stage1Env) (dwg : FPath) :
    (convertDWGtoDXF env dwg).2 = [Event.mkdirDXF, Event.runConverter] := by
  unfold convertDWGtoDXF
  split <;> rfl

theorem odaInDrive_none (drives : List (List Entry)) :
    ∀ l : List Entry, odaInDrive drives l = none →
      ∀ e ∈ l, odaAccept drives e = false := by
  intro l
  induction l with
  | nil =>
    intro _ e he
    cases he
  | cons a as ih =>
    intro h e he
    simp only [odaInDrive] at h
    by_cases ha : odaAccept drives a = true
    · simp [ha] at h
    · rw [if_neg ha] at h
      rcases List.mem_cons.1 he with rfl | he'
      · simpa using ha
      · exact ih h e he'

theorem odaAllDrives_none (drives : List (List Entry)) :
    ∀ ds : List (List Entry), odaAllDrives drives ds = none →
      ∀ d ∈ ds, ∀ e ∈ d, odaAccept drives e = false := by
  intro ds
  induction ds with
  | nil =>
    intro _ d hd
    cases hd
  | cons a as ih =>
    intro h d hd e he
    simp only [odaAllDrives] at h
    cases hcase : odaInDrive drives a with
    | some p => simp [hcase] at h
    | none =>
      rw [hcase] at h
      rcases List.mem_cons.1 hd with rfl | hd'
      · exact odaInDrive_none drives d hcase e he
      · exact ih h d hd' e he

theorem odaInDrive_some (drives : List (List Entry)) :
    ∀ (l : List Entry) (p : FPath), odaInDrive drives l = some p →
      ∃ e, e ∈ l ∧ odaAccept drives e = true ∧ e.path = p := by
  intro l
  induction l with
  | nil =>
    intro p h
    cases h
  | cons a as ih =>
    intro p h
    simp only [odaInDrive] at h
    by_cases ha : odaAccept drives a = true
    · rw [if_pos ha] at h
      exact ⟨a, List.mem_cons_self a as, ha, Option.some.inj h⟩
    · rw [if_neg ha] at h
      obtain ⟨e, he, hacc, hp⟩ := ih p h
      exact ⟨e, List.mem_cons_of_mem a he, hacc, hp⟩

theorem odaAllDrives_some (drives : List (List Entry)) :
    ∀ (ds : List (List Entry)) (p : FPath), odaAllDrives drives ds = some p →
      ∃ d e, d ∈ ds ∧ e ∈ d ∧ odaAccept drives e = true ∧ e.path = p := by
  intro ds
  induction ds with
  | nil =>
    intro p h
    cases h
  | cons a as ih =>
    intro p h
    simp only [odaAllDrives] at h
    cases hcase : odaInDrive drives a with
    | some q =>
      rw [hcase] at h
      obtain ⟨e, he, hacc, hp⟩ := odaInDrive_some drives a q hcase
      exact ⟨a, e, List.mem_cons_self a as, he, hacc, hp.trans (Option.some.inj h)⟩
    | none =>
      rw [hcase] at h
      obtain ⟨d, e, hd, he, hacc, hp⟩ := ih p h
      exact ⟨d, e, List.mem_cons_of_mem a hd, he, hacc, hp⟩

theorem odaInDrive_isSome (drives : List (List Entry)) :
    ∀ (l : List Entry) (e : Entry), e ∈ l → odaAccept drives e = true →
      (odaInDrive drives l).isSome = true := by
  intro l
  induction l with
  | nil =>
    intro e he
    cases he
  | cons a as ih =>
    intro e he hacc
    simp only [odaInDrive]
    by_cases ha : odaAccept drives a = true
    · rw [if_pos ha]
      rfl
    · rw [if_neg ha]
      rcases List.mem_cons.1 he with rfl | he'
      · exact absurd hacc ha
      · exact ih e he' hacc

theorem odaAllDrives_isSome (drives : List (List Entry)) :
    ∀ (ds : List (List Entry)) (d : List Entry), d ∈ ds →
      (odaInDrive drives d).isSome = true →
      (odaAllDrives drives ds).isSome = true := by
  intro ds
  induction ds with
  | nil =>
    intro d hd
    cases hd
  | cons a as ih =>
    intro d hd hsome
    simp only [odaAllDrives]
    cases hcase : odaInDrive drives a with
    | some p => rfl
    | none =>
      rcases List.mem_cons.1 hd with rfl | hd'
      · rw [hcase] at hsome
        cases hsome
      · exact ih d hd' hsome

/-! The claims. -/

/-- C1: the spec's skip-list scenario evaluated on the code.  Scanning drives
C: and D: with `C:\Windows\x.dwg`, `D:\proj\a.dwg`, `D:\proj\b.dwg` present,
the scanner returns `C:\Windows\x.dwg` as well: the `continue` on a matching
entry drops only the skipped directory's own entry and never stops the
recursive iterator from descending into it, so files under a skip-list
directory are still collected (the claim says they never are). -/
theorem c1_skiplist_does_not_prune :
    findAllDWGFiles
      [[⟨["C:", "Windows"], false⟩, ⟨["C:", "Windows", "x.dwg"], true⟩],
       [⟨["D:", "proj"], false⟩, ⟨["D:", "proj", "a.dwg"], true⟩,
        ⟨["D:", "proj", "b.dwg"], true⟩]]
      = [["D:", "proj", "a.dwg"], ["D:", "proj", "b.dwg"], ["C:", "Windows", "x.dwg"]] ∧
    ["C:", "Windows", "x.dwg"] ∈ findAllDWGFiles
      [[⟨["C:", "Windows"], false⟩, ⟨["C:", "Windows", "x.dwg"], true⟩],
       [⟨["D:", "proj"], false⟩, ⟨["D:", "proj", "a.dwg"], true⟩,
        ⟨["D:", "proj", "b.dwg"], true⟩]] := by
  exact ⟨by decide, by decide⟩

/-- C2 counterexample: converter started, exit code 7, expected output file
present — stage 1 reports success, so a non-zero exit code does not make
stage 1 fail, contrary to the claim. -/
theorem c2_counterexample :
    (convertDWGtoDXF ⟨true, false, 7, [["C:", "d", "convertedDXF", "a.dxf"]]⟩
      ["C:", "d", "a.dwg"]).1 = true ∧ (7 : Nat) ≠ 0 := by
  exact ⟨by decide, by decide⟩

/-- C2 amended: stage 1 succeeds iff the converter process started and the
exact expected output path `<dstDir>/<stem>.dxf` exists after the wait; the
reported exit code and a timeout of the wait leave the outcome unchanged, so
they cause failure only through the output file's absence. -/
theorem c2_success_iff_output_exists :
    ∀ (env : Stage1Env) (dwg : FPath),
      ((convertDWGtoDXF env dwg).1 = true ↔
        env.processStarts = true ∧ env.filesAfter.contains (expectedDxf dwg) = true) ∧
      (∀ (ec : Nat) (tmo : Bool),
        convertDWGtoDXF ⟨env.processStarts, tmo, ec, env.filesAfter⟩ dwg =
          convertDWGtoDXF env dwg) := by
  intro env dwg
  constructor
  · unfold convertDWGtoDXF
    cases h : env.processStarts <;> simp [h]
  · intro ec tmo
    unfold convertDWGtoDXF
    cases h : env.processStarts <;> simp [h]

/-- C3: the numbering the presenter prints and the index the selection uses
disagree.  With m.dwg in C:\b and q.dwg, z.dwg in C:\a, the display numbers
q.dwg as 1 (groups come in map key order, C:\a before C:\b), while entering 1
selects m.dwg (the first element of the filename-sorted snapshot). -/
theorem c3_display_index_mismatch :
    (displayOrder (findAllDWGFiles
        [[⟨["C:", "a", "q.dwg"], true⟩, ⟨["C:", "a", "z.dwg"], true⟩,
          ⟨["C:", "b", "m.dwg"], true⟩]]))[0]? = some ["C:", "a", "q.dwg"] ∧
    selectFile (findAllDWGFiles
        [[⟨["C:", "a", "q.dwg"], true⟩, ⟨["C:", "a", "z.dwg"], true⟩,
          ⟨["C:", "b", "m.dwg"], true⟩]]) 1 = some ["C:", "b", "m.dwg"] ∧
    (["C:", "a", "q.dwg"] : FPath) ≠ ["C:", "b", "m.dwg"] := by
  exact ⟨by decide, by decide, by decide⟩

/-- C4: whenever stage 1 reports failure, the trace of `run` contains neither
the renderer launch nor the creation of the convertedPDF directory. -/
theorem c4_no_stage2_after_stage1_failure :
    ∀ env : RunEnv,
      (convertDWGtoDXF env.stage1 (selectedOf env)).1 = false →
      Event.runRenderer ∉ (run env).2 ∧ Event.mkdirPDF ∉ (run env).2 := by
  intro env h
  unfold run
  cases h1 : findODAConverter env.drives env.cwd with
  | none => simp
  | some p =>
    cases h2 : findPythonRenderer env.drives env.cwd with
    | none => simp
    | some q =>
      split_ifs with hemp hrange hok
      · simp
      · simp
      · exact absurd hok (by simp [h])
      · rw [convert_trace]
        exact ⟨by decide, by decide⟩

/-- C4 witness: a run that finds both tools and a DWG file, selects it, and
whose converter run leaves no output: the trace never launches the renderer
nor creates convertedPDF. -/
theorem c4_no_stage2_after_stage1_failure_witness :
    Event.runRenderer ∉
      (run ⟨[[⟨["C:", "ODAFileConverter.exe"], true⟩,
              ⟨["C:", "w", "s", "dxf_renderer.py"], true⟩,
              ⟨["C:", "w", "s", "p.dwg"], true⟩]],
            ["C:", "w", "s"], 1, ⟨true, false, 0, []⟩, ⟨true, false, 0, []⟩⟩).2 ∧
    Event.mkdirPDF ∉
      (run ⟨[[⟨["C:", "ODAFileConverter.exe"], true⟩,
              ⟨["C:", "w", "s", "dxf_renderer.py"], true⟩,
              ⟨["C:", "w", "s", "p.dwg"], true⟩]],
            ["C:", "w", "s"], 1, ⟨true, false, 0, []⟩, ⟨true, false, 0, []⟩⟩).2 :=
  c4_no_stage2_after_stage1_failure _ (by decide)

/-- C5 counterexample: ODAFileConverter.exe present both in the current
directory and in its grandparent; the locator returns the grandparent's copy,
so the nearby phase does not check the current working directory first. -/
theorem c5_counterexample :
    findODAConverter
      [[⟨["C:", "ODAFileConverter.exe"], true⟩,
        ⟨["C:", "a", "b", "ODAFileConverter.exe"], true⟩]] ["C:", "a", "b"]
      = some ["C:", "ODAFileConverter.exe"] ∧
    existsPath
      [[⟨["C:", "ODAFileConverter.exe"], true⟩,
        ⟨["C:", "a", "b", "ODAFileConverter.exe"], true⟩]]
      (["C:", "a", "b"] ++ [odaExeName]) = true ∧
    some ((["C:", "a", "b"] : FPath) ++ [odaExeName]) ≠
      some (["C:", "ODAFileConverter.exe"] : FPath) := by
  exact ⟨by decide, by decide, by decide⟩

/-- C5 amended: the nearby phase checks the grandparent of the current
working directory first (guarded by has_parent_path of the parent), then the
parent, then the current directory, and returns the first hit; any nearby hit
short-circuits, so the full-drive walk never contributes in that case. -/
theorem c5_nearby_order :
    ∀ (drives : List (List Entry)) (cwd : FPath),
      (∀ p, findODANearby drives cwd = some p → findODAConverter drives cwd = some p) ∧
      ((hasParentPath (parentPath cwd) &&
          existsPath drives (parentPath (parentPath cwd) ++ [odaExeName])) = true →
        findODAConverter drives cwd = some (parentPath (parentPath cwd) ++ [odaExeName])) ∧
      ((hasParentPath (parentPath cwd) &&
          existsPath drives (parentPath (parentPath cwd) ++ [odaExeName])) = false →
        existsPath drives (parentPath cwd ++ [odaExeName]) = true →
        findODAConverter drives cwd = some (parentPath cwd ++ [odaExeName])) ∧
      ((hasParentPath (parentPath cwd) &&
          existsPath drives (parentPath (parentPath cwd) ++ [odaExeName])) = false →
        existsPath drives (parentPath cwd ++ [odaExeName]) = false →
        existsPath drives (cwd ++ [odaExeName]) = true →
        findODAConverter drives cwd = some (cwd ++ [odaExeName])) := by
  intro drives cwd
  refine ⟨?_, ?_, ?_, ?_⟩
  · intro p hp
    unfold findODAConverter
    rw [hp]
  · intro hg
    unfold findODAConverter findODANearby
    rw [if_pos hg]
  · intro hg hp
    unfold findODAConverter findODANearby
    rw [if_neg (by simp [hg]), if_pos hp]
  · intro hg hp hc
    unfold findODAConverter findODANearby
    rw [if_neg (by simp [hg]), if_neg (by simp [hp]), if_pos hc]

/-- C5 witness: a grandparent hit is returned, and with no grandparent or
parent hit a current-directory hit is returned. -/
theorem c5_nearby_order_witness :
    findODAConverter [[⟨["C:", "ODAFileConverter.exe"], true⟩]] ["C:", "a", "b"]
      = some (parentPath (parentPath ["C:", "a", "b"]) ++ [odaExeName]) ∧
    findODAConverter [[⟨["C:", "a", "b", "ODAFileConverter.exe"], true⟩]] ["C:", "a", "b"]
      = some ((["C:", "a", "b"] : FPath) ++ [odaExeName]) :=
  ⟨(c5_nearby_order [[⟨["C:", "ODAFileConverter.exe"], true⟩]] ["C:", "a", "b"]).2.1
      (by decide),
   (c5_nearby_order [[⟨["C:", "a", "b", "ODAFileConverter.exe"], true⟩]]
      ["C:", "a", "b"]).2.2.2 (by decide) (by decide) (by decide)⟩

/-- C6 counterexample: dxf_renderer.py exists on a drive (under D:\tools) but
not in the current directory or its parent; the renderer locator reports
NotFound without any drive walk, contrary to the claimed full-drive
fallback. -/
theorem c6_counterexample :
    findPythonRenderer [[⟨["D:", "tools", "dxf_renderer.py"], true⟩]] ["C:", "x", "y"]
      = none ∧
    existsPath [[⟨["D:", "tools", "dxf_renderer.py"], true⟩]]
      ["D:", "tools", "dxf_renderer.py"] = true := by
  exact ⟨by decide, by decide⟩

/-- C6 amended: only the converter locator has the full-drive fallback, and
it returns NotFound only after every entry of every drive has been examined
and rejected; the renderer locator consults exactly the current directory and
its parent and reports NotFound iff both lack dxf_renderer.py. -/
theorem c6_fallback_scope :
    ∀ (drives : List (List Entry)) (cwd : FPath),
      (findPythonRenderer drives cwd = none ↔
        existsPath drives (cwd ++ [pyName]) = false ∧
        existsPath drives (parentPath cwd ++ [pyName]) = false) ∧
      (findODAConverter drives cwd = none →
        ∀ d ∈ drives, ∀ e ∈ d, odaAccept drives e = false) := by
  intro drives cwd
  constructor
  · unfold findPythonRenderer
    split_ifs with h1 h2
    · simp [h1]
    · simp [h2]
    · simp only [Bool.not_eq_true] at h1 h2
      simp [h1, h2]
  · intro hnone d hd e he
    unfold findODAConverter at hnone
    cases hn : findODANearby drives cwd with
    | some p =>
      rw [hn] at hnone
      cases hnone
    | none =>
      rw [hn] at hnone
      exact odaAllDrives_none drives drives hnone d hd e he

/-- C6 witness: with a drive holding only an unrelated file, the renderer
NotFound criterion instantiates, and the converter locator's NotFound implies
that concrete entry was rejected. -/
theorem c6_fallback_scope_witness :
    (findPythonRenderer [[⟨["C:", "f.txt"], true⟩]] ["C:", "x", "y"] = none ↔
      existsPath [[⟨["C:", "f.txt"], true⟩]] (["C:", "x", "y"] ++ [pyName]) = false ∧
      existsPath [[⟨["C:", "f.txt"], true⟩]]
        (parentPath ["C:", "x", "y"] ++ [pyName]) = false) ∧
    odaAccept [[⟨["C:", "f.txt"], true⟩]] ⟨["C:", "f.txt"], true⟩ = false :=
  ⟨(c6_fallback_scope [[⟨["C:", "f.txt"], true⟩]] ["C:", "x", "y"]).1,
   (c6_fallback_scope [[⟨["C:", "f.txt"], true⟩]] ["C:", "x", "y"]).2 (by decide)
     [⟨["C:", "f.txt"], true⟩] (by decide) ⟨["C:", "f.txt"], true⟩ (by decide)⟩

/-- C7: the full-drive walk returns only paths named ODAFileConverter.exe
that have at least one of the TD_Db/TG_Db/TD_Root library siblings; and
whenever some entry of some drive passes the acceptance test, the walk
returns a hit — so name matches without a sibling never terminate the walk,
which continues past them. -/
theorem c7_dll_sibling_required :
    ∀ drives : List (List Entry),
      (∀ p, odaAllDrives drives drives = some p →
        filename p = odaExeName ∧ hasDllSibling drives p = true) ∧
      ((∃ d, d ∈ drives ∧ ∃ e, e ∈ d ∧ odaAccept drives e = true) →
        (odaAllDrives drives drives).isSome = true) := by
  intro drives
  constructor
  · intro p hp
    obtain ⟨d, e, hd, he, hacc, hpath⟩ := odaAllDrives_some drives drives p hp
    subst hpath
    simp only [odaAccept, Bool.and_eq_true] at hacc
    exact ⟨eq_of_beq hacc.1.2, hacc.2⟩
  · rintro ⟨d, hd, e, he, hacc⟩
    exact odaAllDrives_isSome drives drives d hd (odaInDrive_isSome drives d e he hacc)

/-- C7 witness: a drive whose first ODAFileConverter.exe has no library
sibling and whose second has TD_Db.dll: the walk result has a sibling and the
walk does find a hit. -/
theorem c7_dll_sibling_required_witness :
    hasDllSibling
      [[⟨["C:", "bad", "ODAFileConverter.exe"], true⟩,
        ⟨["C:", "good", "ODAFileConverter.exe"], true⟩,
        ⟨["C:", "good", "TD_Db.dll"], true⟩]]
      ["C:", "good", "ODAFileConverter.exe"] = true ∧
    (odaAllDrives
      [[⟨["C:", "bad", "ODAFileConverter.exe"], true⟩,
        ⟨["C:", "good", "ODAFileConverter.exe"], true⟩,
        ⟨["C:", "good", "TD_Db.dll"], true⟩]]
      [[⟨["C:", "bad", "ODAFileConverter.exe"], true⟩,
        ⟨["C:", "good", "ODAFileConverter.exe"], true⟩,
        ⟨["C:", "good", "TD_Db.dll"], true⟩]]).isSome = true :=
  ⟨((c7_dll_sibling_required
      [[⟨["C:", "bad", "ODAFileConverter.exe"], true⟩,
        ⟨["C:", "good", "ODAFileConverter.exe"], true⟩,
        ⟨["C:", "good", "TD_Db.dll"], true⟩]]).1
      ["C:", "good", "ODAFileConverter.exe"] (by decide)).2,
   (c7_dll_sibling_required
      [[⟨["C:", "bad", "ODAFileConverter.exe"], true⟩,
        ⟨["C:", "good", "ODAFileConverter.exe"], true⟩,
        ⟨["C:", "good", "TD_Db.dll"], true⟩]]).2
      ⟨[⟨["C:", "bad", "ODAFileConverter.exe"], true⟩,
        ⟨["C:", "good", "ODAFileConverter.exe"], true⟩,
        ⟨["C:", "good", "TD_Db.dll"], true⟩], by decide,
       ⟨["C:", "good", "ODAFileConverter.exe"], true⟩, by decide, by decide⟩⟩

/-- C8: the scan result is sorted ascending by filename (the last path
component), and scanning the same unchanged drives again yields the identical
list. -/
theorem c8_scan_sorted_and_deterministic :
    ∀ drives : List (List Entry),
      List.Sorted (fun a b => fnameLe a b = true) (findAllDWGFiles drives) ∧
      (∀ drives2 : List (List Entry), drives2 = drives →
        findAllDWGFiles drives2 = findAllDWGFiles drives) := by
  intro drives
  refine ⟨sorted_sortByFilename _, ?_⟩
  intro drives2 h
  rw [h]

/-- C8 witness: instantiated on a two-directory drive. -/
theorem c8_scan_sorted_and_deterministic_witness :
    List.Sorted (fun a b => fnameLe a b = true)
      (findAllDWGFiles [[⟨["C:", "a", "q.dwg"], true⟩, ⟨["C:", "b", "m.dwg"], true⟩]]) ∧
    findAllDWGFiles [[⟨["C:", "a", "q.dwg"], true⟩, ⟨["C:", "b", "m.dwg"], true⟩]] =
      findAllDWGFiles [[⟨["C:", "a", "q.dwg"], true⟩, ⟨["C:", "b", "m.dwg"], true⟩]] :=
  ⟨(c8_scan_sorted_and_deterministic
      [[⟨["C:", "a", "q.dwg"], true⟩, ⟨["C:", "b", "m.dwg"], true⟩]]).1,
   (c8_scan_sorted_and_deterministic
      [[⟨["C:", "a", "q.dwg"], true⟩, ⟨["C:", "b", "m.dwg"], true⟩]]).2
      [[⟨["C:", "a", "q.dwg"], true⟩, ⟨["C:", "b", "m.dwg"], true⟩]] rfl⟩

/-- C9: a non-positive or out-of-range selection makes `run` return failure
with an empty side-effect trace: neither stage is launched and no output
directory is created, and the (purely functional) candidate list is whatever
a fresh scan yields. -/
theorem c9_invalid_selection_rejected :
    ∀ env : RunEnv,
      (env.choice ≤ 0 ∨ ((findAllDWGFiles env.drives).length : Int) < env.choice) →
      run env = (false, []) := by
  intro env h
  unfold run
  cases h1 : findODAConverter env.drives env.cwd with
  | none => rfl
  | some p =>
    cases h2 : findPythonRenderer env.drives env.cwd with
    | none => rfl
    | some q =>
      by_cases hemp : (findAllDWGFiles env.drives).isEmpty = true
      · rw [if_pos hemp]
      · rw [if_neg hemp, if_pos h]

/-- C9 witness: selection 0 on a populated environment. -/
theorem c9_invalid_selection_rejected_witness :
    run ⟨[[⟨["C:", "ODAFileConverter.exe"], true⟩,
           ⟨["C:", "w", "s", "dxf_renderer.py"], true⟩,
           ⟨["C:", "w", "s", "p.dwg"], true⟩]],
         ["C:", "w", "s"], 0, ⟨true, false, 0, []⟩, ⟨true, false, 0, []⟩⟩ = (false, []) :=
  c9_invalid_selection_rejected _ (Or.inl (by decide))

/-- C10: among the regular-file entries a drive walk yields, an entry's path
is collected exactly when its extension is the string ".dwg" — an exact,
case-sensitive comparison, so e.g. "PLAN.DWG" (extension ".DWG") is not
collected. -/
theorem c10_extension_exact :
    ∀ (d : List Entry) (e : Entry), e ∈ d → e.isRegular = true →
      (e.path ∈ searchDWGInDrive d ↔ extension (filename e.path) = ".dwg") := by
  intro d e hmem hreg
  constructor
  · intro hin
    obtain ⟨e2, he2, hpath⟩ := List.mem_map.1 hin
    obtain ⟨_, hc⟩ := List.mem_filter.1 he2
    simp only [collectEntry, Bool.and_eq_true] at hc
    rw [← hpath]
    exact eq_of_beq hc.2
  · intro hext
    have hskip : isSkipName (filename e.path) = false := by
      cases hs : isSkipName (filename e.path) with
      | false => rfl
      | true => exact absurd hext (isSkipName_extension _ hs)
    refine List.mem_map.2 ⟨e, List.mem_filter.2 ⟨hmem, ?_⟩, rfl⟩
    simp [collectEntry, hskip, hreg, hext]

/-- C10 witness: on a drive holding PLAN.DWG and plan.dwg, the criterion
instantiates for the upper-case file (whose extension is ".DWG", not
".dwg"). -/
theorem c10_extension_exact_witness :
    (["C:", "PLAN.DWG"] : FPath) ∈
        searchDWGInDrive [⟨["C:", "PLAN.DWG"], true⟩, ⟨["C:", "plan.dwg"], true⟩] ↔
      extension (filename ["C:", "PLAN.DWG"]) = ".dwg" :=
  c10_extension_exact [⟨["C:", "PLAN.DWG"], true⟩, ⟨["C:", "plan.dwg"], true⟩]
    ⟨["C:", "PLAN.DWG"], true⟩ (by decide) rfl

end DwgHybrid
